import Mathlib

/-!
Verification of the inject-store repository (src/src/index.js, src/src/utils.js).

The development shallowly embeds the JavaScript source:

* `JSValue` models the JavaScript values that flow through the module:
  `undefined`, `null`, booleans, numbers, strings, functions (opaque, tagged
  by a numeric identity) and plain objects (own enumerable string-keyed
  entries in insertion order).
* JS objects used as key-value maps (`store.runningReducers`,
  `store.runningSagas`, the middlewares mapping) are association lists with
  insertion-order semantics: assignment `m[k] = v` replaces the value at the
  first occurrence of `k` or appends, `delete m[k]` removes the entry, and
  the spread `\x7b...a, ...b\x7d` folds the entries of `b` over `a`.
* The Redux store object is the structure `Store`; the methods that the
  source installs on it (`injectReducer`, `getSaga`, ...) are modelled as
  top-level functions acting on explicit state, which is the standard
  reading of the closures returned by `createInjectReducer` /
  `createInjectSaga`.
* Calls to `store.replaceReducer(combineReducers(reducers))` are recorded in
  a log (`replaceLog`) holding the mapping handed to `combineReducers`;
  invocations of the `runSaga` capability and of handle `cancel()` methods
  are likewise recorded in logs, so that "invoked at most once" claims are
  expressible.  `configureStore`, `combineReducers` and the saga engine are
  external collaborators and stay opaque.

A central aliasing fact of the source, reflected below: line 188
(`store.runningReducers = noopReducer`) assigns the module-level
`noopReducer` object to the store field by reference.  Every later mutation
(`store.runningReducers[key] = reducer`, line 119, and
`delete store.runningReducers[key]`, line 126) mutates that same shared
object.  Consequently, in the spread
`\x7b ...(store.runningReducers ?? \x7b\x7d), ...noopReducer \x7d`
(lines 120 and 127) both operands denote the same current mapping, and the
spread is modelled literally as `amerge m m`.
-/

/-- JavaScript runtime values, at the granularity the module observes them:
primitives, opaque functions (tagged with an identity), and plain objects
given by their own enumerable entries in insertion order. -/
inductive JSValue where
  | undef
  | null
  | boolV (b : Bool)
  | numV (n : Int)
  | strV (s : String)
  | funcV (id : Nat)
  | objV (entries : List (String × JSValue))

/-- The JavaScript `typeof` operator on the modelled values.
Note `typeof null` is the string "object". -/
def typeof : JSValue → String
  | .undef => "undefined"
  | .null => "object"
  | .boolV _ => "boolean"
  | .numV _ => "number"
  | .strV _ => "string"
  | .funcV _ => "function"
  | .objV _ => "object"

/-- utils.js `isEmpty`: true for `undefined`, `null`, the empty string, and
objects with zero own keys; false otherwise (numbers, booleans and
functions are never empty). -/
def isEmpty : JSValue → Bool
  | .undef => true
  | .null => true
  | .strV s => s == ""
  | .objV l => l.isEmpty
  | .boolV _ => false
  | .numV _ => false
  | .funcV _ => false

/-- JavaScript truthiness of the modelled values. -/
def truthy : JSValue → Bool
  | .undef => false
  | .null => false
  | .boolV b => b
  | .numV n => n != 0
  | .strV s => s != ""
  | .funcV _ => true
  | .objV _ => true

/-- utils.js `isFunction`. -/
def isFunction (v : JSValue) : Bool := typeof v == "function"

/-- utils.js `isObject`: the raw `typeof v === 'object'` check, which is
also true for `null`. -/
def isObject (v : JSValue) : Bool := typeof v == "object"

/-- Property access `v[p]` as it occurs in this module: reading an own entry
of an object; reading a property of a primitive or of a missing entry gives
`undefined`.  (The module never reads properties of `undefined`/`null`
except through guards that make it unreachable.) -/
def propGet : JSValue → String → JSValue
  | .objV l, p => go l p
  | _, _ => .undef
where
  go : List (String × JSValue) → String → JSValue
    | [], _ => .undef
    | (k, v) :: rest, p => if k = p then v else go rest p

/-- A JS object used as a string-keyed map: own enumerable entries in
insertion order. -/
abbrev JMap := List (String × JSValue)

/-- Read `m[k]`: the value at the first occurrence of `k`, `undefined` when
absent. -/
def aget : JMap → String → JSValue
  | [], _ => .undef
  | (k', v) :: rest, k => if k' = k then v else aget rest k

/-- Whether the object has own key `k`. -/
def containsKey : JMap → String → Bool
  | [], _ => false
  | (k', _) :: rest, k => if k' = k then true else containsKey rest k

/-- Assignment `m[k] = v`: replaces the value at the first occurrence of
`k`, or appends a new entry (JS insertion-order semantics). -/
def aset : JMap → String → JSValue → JMap
  | [], k, v => [(k, v)]
  | (k', v') :: rest, k, v =>
      if k' = k then (k, v) :: rest else (k', v') :: aset rest k v

/-- `delete m[k]`: removes the entry (entries, for robustness) with key
`k`. -/
def adel : JMap → String → JMap
  | [], _ => []
  | (k', v') :: rest, k =>
      if k' = k then adel rest k else (k', v') :: adel rest k

/-- The object spread `\x7b ...a, ...b \x7d`: the entries of `b` assigned
over `a` in order. -/
def amerge (a b : JMap) : JMap :=
  b.foldl (fun m p => aset m p.1 p.2) a

/-- utils.js `values` (`Object.values`). -/
def avalues (m : JMap) : List JSValue := m.map Prod.snd

/-- Whether the keys of the association list are pairwise distinct (true
for every object reachable in this module, since JS objects have unique
keys). -/
def keysNodup : JMap → Bool
  | [] => true
  | (k, _) :: rest => !containsKey rest k && keysNodup rest

/-- index.js line 146: the module-level placeholder mapping
`\x7b _noop: (state = \x7b\x7d) => state \x7d`.  The function identity 0
stands for the no-op reducer. -/
def noopEntries : JMap := [("_noop", .funcV 0)]

/-- index.js constants import: the well-known middlewares key that triggers
automatic saga-registry creation.  constants.js is not part of the
provided sources; the literal is immaterial to every claim. -/
def SAGA_MIDDLEWARE : String := "sagaMiddleware"

/-- The Redux store object, at the granularity the module observes it.
`runningReducers` / `runningSagas` are `none` when the property is
`undefined` (never assigned) and `some m` once they hold an object.
`middlewares` is the mapping attached at creation (line 189).  The methods
the source installs on the store are modelled as the top-level functions
below. -/
structure Store where
  dispatch : JSValue
  getState : JSValue
  subscribe : JSValue
  replaceReducer : JSValue
  runningReducers : Option JMap
  runningSagas : Option JMap
  middlewares : JMap

/-- `isEmpty` of an optional mapping-valued property: `undefined` is empty,
an object is empty when it has no keys. -/
def isEmptyOpt : Option JMap → Bool
  | none => true
  | some l => l.isEmpty

/-- index.js lines 21-46, `isStoreValid`: the four base operations must be
present and callable and `runningReducers` must be non-empty.  The leading
`isEmpty(store)` guard of line 22 is subsumed: a store object with zero own
keys has an `undefined` `dispatch`, failing the conjunction anyway.  The
`middlewares` parameter of the source is unused (its checks are commented
out, lines 35-40). -/
def isStoreValid (store : Store) : Bool :=
  truthy store.dispatch && isFunction store.dispatch &&
  truthy store.getState && isFunction store.getState &&
  truthy store.subscribe && isFunction store.subscribe &&
  truthy store.replaceReducer && isFunction store.replaceReducer &&
  !isEmptyOpt store.runningReducers

/-- index.js line 111: `if (store.runningReducers === undefined)
store.runningReducers = \x7b\x7d` — initialize only when undefined. -/
def initRunningReducers (st : Store) : Store :=
  match st.runningReducers with
  | none => { st with runningReducers := some [] }
  | some _ => st

/-- index.js line 71: the same conditional initialization for
`runningSagas`. -/
def initRunningSagas (st : Store) : Store :=
  match st.runningSagas with
  | none => { st with runningSagas := some [] }
  | some _ => st

/-- index.js lines 107-144, `createInjectReducer`: validates the store and
conditionally initializes `runningReducers`; the returned closures are the
`injectReducerS` / `getReducer` / `cancelReducer` / `injectReducers`
functions below, and attaching them to the store does not change the state
the claims observe. -/
def createInjectReducer (st : Store) : Except String Store :=
  if !isStoreValid st then .error "Store is not valid"
  else .ok (initRunningReducers st)

/-- index.js lines 64-88, `createInjectSaga`: validates the store and the
`runSaga` argument and conditionally initializes `runningSagas`; the
returned closures are the saga-registry functions below. -/
def createInjectSaga (st : Store) (runSaga : JSValue) : Except String Store :=
  if !isStoreValid st then .error "Store is not valid"
  else if !isFunction runSaga then .error "runSaga is not a function"
  else .ok (initRunningSagas st)

/-- index.js lines 167-171: a middleware value is rejected when it is
neither of JS type object nor a function. -/
def badMiddleware (v : JSValue) : Bool := !isObject v && !isFunction v

/-- index.js lines 165-202, `createReduxStore`, threading the global slot
(`window[__REDUX_STORE__]` / `globalThis[__REDUX_STORE__]`) explicitly:
the argument `slot` is its content before the call, the returned slot its
content after.  A `none` slot is the unset (`undefined`, hence `isEmpty`)
global; a `some st` slot is a store object, which has own keys and is
therefore never `isEmpty`.  `fresh` stands for the object the external
`configureStore` collaborator returns, before the module mutates it
(lines 188-189).  The devtools activation (lines 194-196) and the
`console` diagnostics are external effects with no bearing on the state
modelled here.  On line 193 the source publishes the store to the global
slot before installing the registries; the error results below therefore
do not report a slot value, and no claim observes the slot after a
failure. -/
def createReduxStore (fresh : Store) (mws : JMap) (slot : Option Store) :
    Except String (Store × Option Store) :=
  if (avalues mws).any badMiddleware then
    .error "Middleware is not a function or an object"
  else
    match slot with
    | some existing =>
        if !isStoreValid existing then
          .error "Existing store is not valid or does not match existing middlewares"
        else .ok (existing, some existing)
    | none =>
        let store : Store :=
          { fresh with runningReducers := some noopEntries, middlewares := mws }
        if !isStoreValid store then .error "Failed to create store"
        else
          match createInjectReducer store with
          | .error e => .error e
          | .ok store1 =>
              let mw := aget mws SAGA_MIDDLEWARE
              if truthy mw && truthy (propGet mw "run") then
                match createInjectSaga store1 (propGet mw "run") with
                | .error e => .error e
                | .ok store2 => .ok (store2, some store2)
              else .ok (store1, some store1)

/-- The state the reducer registry reads and writes: the shared
`runningReducers` object (which, for a store built by `createReduxStore`,
is the module-level `noopReducer` object itself, line 188), plus the log of
mappings handed to `combineReducers`/`replaceReducer`. -/
structure RStore where
  runningReducers : JMap
  replaceLog : List JMap

/-- Outcome of a registry call: the state afterwards, the returned value
(`undefined` for the bare `return` paths), and the thrown error if any. -/
structure RResult where
  state : RStore
  ret : JSValue
  err : Option String

/-- index.js line 112, `getReducer`. -/
def getReducer (s : RStore) (key : String) : JSValue :=
  aget s.runningReducers key

/-- index.js lines 113-123, `injectReducer`.  The guards run in source
order: empty reducer, empty key, key already bound to a truthy value, then
the callability check; only then is the entry stored and the dispatch
mechanism reconfigured with the spread of the mapping with itself (see the
aliasing note in the header). -/
def injectReducerS (s : RStore) (key : String) (reducer : JSValue) : RResult :=
  if isEmpty reducer then ⟨s, .undef, none⟩
  else if isEmpty (.strV key) then ⟨s, .undef, none⟩
  else if truthy (aget s.runningReducers key) then
    ⟨s, aget s.runningReducers key, none⟩
  else if !(typeof reducer == "function") then
    ⟨s, .undef, some "Reducer must be a function"⟩
  else
    let m := aset s.runningReducers key reducer
    ⟨⟨m, s.replaceLog ++ [amerge m m]⟩, aget m key, none⟩

/-- index.js lines 124-130, `cancelReducer`: when the key is bound to a
truthy value, delete it and reconfigure; otherwise do nothing. -/
def cancelReducer (s : RStore) (key : String) : RStore :=
  if truthy (aget s.runningReducers key) then
    let m := adel s.runningReducers key
    ⟨m, s.replaceLog ++ [amerge m m]⟩
  else s

/-- The `forEach` body of `injectReducers` (line 135): inject each entry in
iteration order; a thrown error propagates, keeping the injections already
performed. -/
def injectManyGo (s : RStore) : List (String × JSValue) → RResult
  | [] => ⟨s, .undef, none⟩
  | (k, v) :: rest =>
      let r := injectReducerS s k v
      match r.err with
      | some e => ⟨r.state, .undef, some e⟩
      | none => injectManyGo r.state rest

/-- index.js lines 131-138, `injectReducers`: arguments whose `typeof` is
not "object" are rejected with the expected-mapping error; `null` passes
that check (its `typeof` is "object") and `Object.entries(null)` then
throws a TypeError. -/
def injectReducers (s : RStore) (arg : JSValue) : RResult :=
  if !isObject arg then
    ⟨s, .undef, some ("Expected object, provided " ++ typeof arg)⟩
  else
    match arg with
    | .objV entries => injectManyGo s entries
    | _ => ⟨s, .undef, some "TypeError: Cannot convert undefined or null to object"⟩

/-- A handler-registry operation, for claims quantifying over call
sequences. -/
inductive ROp where
  | inject (key : String) (reducer : JSValue)
  | injectMany (arg : JSValue)
  | cancel (key : String)

/-- Apply one registry operation to the state (a thrown error leaves the
state reached up to the throw). -/
def applyROp (s : RStore) : ROp → RStore
  | .inject k v => (injectReducerS s k v).state
  | .injectMany arg => (injectReducers s arg).state
  | .cancel k => cancelReducer s k

/-- Apply a sequence of registry operations in order. -/
def applyROps (s : RStore) (ops : List ROp) : RStore :=
  ops.foldl applyROp s

/-- The registry state of a container fresh out of `createReduxStore`:
`runningReducers` is the placeholder object (line 188) and no
reconfiguration has happened yet. -/
def initRStore : RStore := ⟨noopEntries, []⟩

/-- The state the saga registry reads and writes: the `runningSagas`
object, the log of process definitions passed to the `runSaga` capability
(one entry per invocation, in order), and the log of handles whose
`cancel()` was invoked (one entry per invocation, in order). -/
structure SagaState where
  runningSagas : JMap
  runLog : List JSValue
  cancelLog : List JSValue

/-- index.js line 72, `getSaga`. -/
def getSaga (s : SagaState) (key : String) : JSValue :=
  aget s.runningSagas key

/-- index.js lines 73-77, `injectSaga`: if the key is bound to a truthy
value return it; otherwise invoke the run capability, store the handle and
return the stored value.  `runSaga` is the capability passed to
`createInjectSaga`. -/
def injectSaga (runSaga : JSValue → JSValue) (s : SagaState) (key : String)
    (saga : JSValue) : JSValue × SagaState :=
  if truthy (aget s.runningSagas key) then (aget s.runningSagas key, s)
  else
    let handle := runSaga saga
    let m := aset s.runningSagas key handle
    (aget m key, ⟨m, s.runLog ++ [saga], s.cancelLog⟩)

/-- index.js lines 78-83, `cancelSaga`: when the key is bound to a truthy
handle, invoke its `cancel` capability (a TypeError if the handle has no
callable `cancel`) and delete the entry; otherwise do nothing. -/
def cancelSaga (s : SagaState) (key : String) : SagaState × Option String :=
  let h := aget s.runningSagas key
  if truthy h then
    if !isFunction (propGet h "cancel") then
      (s, some "TypeError: cancel is not a function")
    else
      (⟨adel s.runningSagas key, s.runLog, s.cancelLog ++ [h]⟩, none)
  else (s, none)

/-! Association-list lemmas for the JS object-as-map operations. -/

theorem aget_aset_self (m : JMap) (k : String) (v : JSValue) :
    aget (aset m k v) k = v := by
  induction m with
  | nil => simp [aset, aget]
  | cons p rest ih =>
      obtain ⟨k', v'⟩ := p
      by_cases h : k' = k <;> simp [aset, aget, h, ih]

theorem aget_aset_ne (m : JMap) (k k' : String) (v : JSValue) (h : k' ≠ k) :
    aget (aset m k v) k' = aget m k' := by
  have hks : k ≠ k' := Ne.symm h
  induction m with
  | nil => simp [aset, aget, hks]
  | cons p rest ih =>
      obtain ⟨k0, v0⟩ := p
      by_cases h0 : k0 = k
      · subst h0
        simp [aset, aget, hks]
      · simp [aset, aget, h0, ih]

theorem aget_adel_self (m : JMap) (k : String) :
    aget (adel m k) k = .undef := by
  induction m with
  | nil => simp [adel, aget]
  | cons p rest ih =>
      obtain ⟨k', v'⟩ := p
      by_cases h : k' = k <;> simp [adel, aget, h, ih]

theorem aget_adel_ne (m : JMap) (k k' : String) (h : k' ≠ k) :
    aget (adel m k) k' = aget m k' := by
  have hks : k ≠ k' := Ne.symm h
  induction m with
  | nil => simp [adel]
  | cons p rest ih =>
      obtain ⟨k0, v0⟩ := p
      by_cases h0 : k0 = k
      · subst h0
        simp [adel, aget, hks, ih]
      · simp [adel, aget, h0, ih]

theorem containsKey_adel_self (m : JMap) (k : String) :
    containsKey (adel m k) k = false := by
  induction m with
  | nil => simp [adel, containsKey]
  | cons p rest ih =>
      obtain ⟨k', v'⟩ := p
      by_cases h : k' = k <;> simp [adel, containsKey, h, ih]

theorem containsKey_adel_ne (m : JMap) (k k' : String) (h : k' ≠ k) :
    containsKey (adel m k) k' = containsKey m k' := by
  have hks : k ≠ k' := Ne.symm h
  induction m with
  | nil => simp [adel]
  | cons p rest ih =>
      obtain ⟨k0, v0⟩ := p
      by_cases h0 : k0 = k
      · subst h0
        simp [adel, containsKey, hks, ih]
      · simp [adel, containsKey, h0, ih]

theorem aget_of_not_containsKey (m : JMap) (k : String)
    (h : containsKey m k = false) : aget m k = .undef := by
  induction m with
  | nil => simp [aget]
  | cons p rest ih =>
      obtain ⟨k', v'⟩ := p
      by_cases h0 : k' = k
      · simp [containsKey, h0] at h
      · simp [containsKey, h0] at h
        simp [aget, h0, ih h]

theorem containsKey_of_truthy_aget (m : JMap) (k : String)
    (h : truthy (aget m k) = true) : containsKey m k = true := by
  by_cases hc : containsKey m k = true
  · exact hc
  · rw [aget_of_not_containsKey m k (by simpa using hc)] at h
    simp [truthy] at h

theorem aset_absent (m : JMap) (k : String) (v : JSValue)
    (h : containsKey m k = false) : aset m k v = m ++ [(k, v)] := by
  induction m with
  | nil => simp [aset]
  | cons p rest ih =>
      obtain ⟨k', v'⟩ := p
      by_cases h0 : k' = k
      · simp [containsKey, h0] at h
      · simp [containsKey, h0] at h
        simp [aset, h0, ih h]

theorem adel_aset (m : JMap) (k : String) (v : JSValue) :
    adel (aset m k v) k = adel m k := by
  induction m with
  | nil => simp [aset, adel]
  | cons p rest ih =>
      obtain ⟨k', v'⟩ := p
      by_cases h : k' = k <;> simp [aset, adel, h, ih]

theorem adel_absent (m : JMap) (k : String)
    (h : containsKey m k = false) : adel m k = m := by
  induction m with
  | nil => simp [adel]
  | cons p rest ih =>
      obtain ⟨k', v'⟩ := p
      by_cases h0 : k' = k
      · simp [containsKey, h0] at h
      · simp [containsKey, h0] at h
        simp [adel, h0, ih h]

theorem containsKey_aset (m : JMap) (k k' : String) (v : JSValue) :
    containsKey (aset m k v) k' = (containsKey m k' || k = k') := by
  induction m with
  | nil => by_cases h : k = k' <;> simp [aset, containsKey, h]
  | cons p rest ih =>
      obtain ⟨k0, v0⟩ := p
      by_cases h0 : k0 = k
      · subst h0
        by_cases h1 : k0 = k' <;> simp [aset, containsKey, h1, ih]
      · by_cases h1 : k0 = k'
        · subst h1
          simp [aset, containsKey, h0]
        · simp [aset, containsKey, h0, h1, ih]

theorem keysNodup_aset (m : JMap) (k : String) (v : JSValue)
    (h : keysNodup m = true) : keysNodup (aset m k v) = true := by
  induction m with
  | nil => simp [aset, keysNodup, containsKey]
  | cons p rest ih =>
      obtain ⟨k0, v0⟩ := p
      simp [keysNodup] at h
      by_cases h0 : k0 = k
      · subst h0
        simp [aset, keysNodup, containsKey_aset, h.1, h.2]
      · simp [aset, keysNodup, h0, containsKey_aset, h.1, Ne.symm h0, ih h.2]

theorem keysNodup_adel (m : JMap) (k : String)
    (h : keysNodup m = true) : keysNodup (adel m k) = true := by
  induction m with
  | nil => simp [adel, keysNodup]
  | cons p rest ih =>
      obtain ⟨k0, v0⟩ := p
      simp [keysNodup] at h
      by_cases h0 : k0 = k
      · simp [adel, h0, ih h.2]
      · by_cases hc : containsKey (adel rest k) k0 = true
        · rw [containsKey_adel_ne rest k k0 (by intro hh; exact h0 hh)] at hc
          simp [hc] at h
        · simp [adel, h0, keysNodup, ih h.2]
          simpa using hc

theorem containsKey_of_mem (m : JMap) (k : String) (v : JSValue)
    (hm : (k, v) ∈ m) : containsKey m k = true := by
  induction m with
  | nil => simp at hm
  | cons p rest ih =>
      obtain ⟨k0, v0⟩ := p
      rcases List.mem_cons.mp hm with hh | hh
      · cases hh
        simp [containsKey]
      · by_cases h0 : k0 = k <;> simp [containsKey, h0, ih hh]

theorem aget_of_mem_nodup (m : JMap) (k : String) (v : JSValue)
    (hnd : keysNodup m = true) (hm : (k, v) ∈ m) : aget m k = v := by
  induction m with
  | nil => simp at hm
  | cons p rest ih =>
      obtain ⟨k0, v0⟩ := p
      simp [keysNodup] at hnd
      rcases List.mem_cons.mp hm with hh | hh
      · cases hh
        simp [aget]
      · by_cases h0 : k0 = k
        · subst h0
          have hc := containsKey_of_mem rest k0 v hh
          simp [hc] at hnd
        · simp [aget, h0, ih hnd.2 hh]

theorem aset_self_of_bound (m : JMap) (k : String) (v : JSValue)
    (hc : containsKey m k = true) (hv : aget m k = v) : aset m k v = m := by
  induction m with
  | nil => simp [containsKey] at hc
  | cons p rest ih =>
      obtain ⟨k0, v0⟩ := p
      by_cases h0 : k0 = k
      · subst h0
        simp [aget] at hv
        simp [aset, hv]
      · simp [containsKey, h0] at hc
        simp [aget, h0] at hv
        simp [aset, h0, ih hc hv]

theorem foldl_aset_fixed (m : JMap) (l : List (String × JSValue))
    (h : ∀ p ∈ l, aset m p.1 p.2 = m) :
    l.foldl (fun acc p => aset acc p.1 p.2) m = m := by
  induction l with
  | nil => rfl
  | cons p rest ih =>
      have hp : aset m p.1 p.2 = m := h p (by simp)
      simp only [List.foldl_cons, hp]
      exact ih (fun q hq => h q (by simp [hq]))

theorem amerge_self (m : JMap) (hnd : keysNodup m = true) :
    amerge m m = m := by
  unfold amerge
  exact foldl_aset_fixed m m (fun p hp =>
    aset_self_of_bound m p.1 p.2 (containsKey_of_mem m p.1 p.2 hp)
      (aget_of_mem_nodup m p.1 p.2 hnd hp))

theorem aget_append_absent (m l : JMap) (k : String)
    (h : containsKey m k = false) : aget (m ++ l) k = aget l k := by
  induction m with
  | nil => simp
  | cons p rest ih =>
      obtain ⟨k0, v0⟩ := p
      by_cases h0 : k0 = k
      · simp [containsKey, h0] at h
      · simp [containsKey, h0] at h
        simp [aget, h0, ih h]

theorem containsKey_append (a b : JMap) (k : String) :
    containsKey (a ++ b) k = (containsKey a k || containsKey b k) := by
  induction a with
  | nil => simp [containsKey]
  | cons p rest ih =>
      obtain ⟨k0, v0⟩ := p
      by_cases h0 : k0 = k <;> simp [containsKey, h0, ih]

theorem keysNodup_append_single (m : JMap) (k : String) (v : JSValue)
    (hnd : keysNodup m = true) (hc : containsKey m k = false) :
    keysNodup (m ++ [(k, v)]) = true := by
  induction m with
  | nil => simp [keysNodup, containsKey]
  | cons p rest ih =>
      obtain ⟨k0, v0⟩ := p
      simp [keysNodup] at hnd
      by_cases h0 : k0 = k
      · simp [containsKey, h0] at hc
      · simp [containsKey, h0] at hc
        simp [keysNodup, containsKey_append, containsKey, hnd.1, Ne.symm h0,
          ih hnd.2 hc]

/-! Concrete objects used by the witnesses. -/

/-- A concrete valid store: four callable base operations, the placeholder
handler mapping, no saga registry yet. -/
def demoStore : Store :=
  ⟨.funcV 1, .funcV 2, .funcV 3, .funcV 4, some noopEntries, none, []⟩

/-- A concrete pristine object as returned by the external `configureStore`
collaborator, before `createReduxStore` attaches its fields. -/
def demoFresh : Store :=
  ⟨.funcV 1, .funcV 2, .funcV 3, .funcV 4, none, none, []⟩

/-- A concrete run capability: every process definition yields a fresh
handle object carrying a callable `cancel`. -/
def demoRun : JSValue → JSValue := fun _ => .objV [("cancel", .funcV 7)]

/-- A saga registry with nothing registered and empty logs. -/
def emptySagaState : SagaState := ⟨[], [], []⟩

/-! Claim C1. -/

/-- C1: when a valid container is already stored in the global slot, a
second call to `createReduxStore` (with any well-formed middlewares
argument) returns that identical container and leaves the global slot
unchanged — the stored store object, its behaviors mapping
(`middlewares`) and its handler mapping (`runningReducers`) are the very
ones already stored, not replaced or merged with the newly supplied
middlewares argument. -/
theorem c1_singleton_returns_existing (fresh st : Store) (mws : JMap)
    (hmw : (avalues mws).any badMiddleware = false)
    (hval : isStoreValid st = true) :
    createReduxStore fresh mws (some st) = .ok (st, some st) := by
  simp [createReduxStore, hmw, hval]

/-- Witness for C1 at a concrete valid stored container and a concrete
middleware mapping. -/
theorem c1_witness :
    createReduxStore demoFresh [("m", .funcV 9)] (some demoStore)
      = .ok (demoStore, some demoStore) :=
  c1_singleton_returns_existing demoFresh demoStore [("m", .funcV 9)] rfl rfl

/-! Claim C2. -/

/-- C2: round-trip.  For a non-empty key not present in the handler
mapping, injectReducer followed by getReducer returns the injected
handler; for a key not present in the process mapping, injectSaga followed
by getSaga returns the handle produced by the run capability. -/
theorem c2_roundtrip (s : RStore) (k : String) (i : Nat)
    (hke : (k == "") = false)
    (habs : aget s.runningReducers k = .undef)
    (run : JSValue → JSValue) (ss : SagaState) (k2 : String) (d : JSValue)
    (habs2 : aget ss.runningSagas k2 = .undef) :
    getReducer (injectReducerS s k (.funcV i)).state k = .funcV i
    ∧ getSaga (injectSaga run ss k2 d).2 k2 = run d := by
  constructor
  · simp [injectReducerS, isEmpty, hke, habs, truthy, typeof, getReducer,
      aget_aset_self]
  · simp [injectSaga, habs2, truthy, getSaga, aget_aset_self]

/-- Witness for C2 at concrete fresh keys. -/
theorem c2_witness :
    getReducer (injectReducerS initRStore "user" (.funcV 3)).state "user"
      = .funcV 3
    ∧ getSaga (injectSaga demoRun emptySagaState "p" (.numV 1)).2 "p"
      = .objV [("cancel", .funcV 7)] :=
  c2_roundtrip initRStore "user" 3 rfl rfl demoRun emptySagaState "p"
    (.numV 1) rfl

/-! Claim C3. -/

/-- C3 counterexample: the handler mapping of a freshly created container
does NOT stay non-empty under every handler-registry operation sequence.
`cancelReducer` applied to the placeholder key `_noop` (bound to a truthy
function from creation, so the guard of line 125 passes) deletes the only
entry, leaving `runningReducers` empty — and, through the aliasing of
line 188, even the rebuilt combined mapping is empty. -/
theorem c3_counterexample :
    (applyROps initRStore [ROp.cancel "_noop"]).runningReducers.isEmpty
      = true := rfl

/-- Whether the operation is a cancelReducer call on the placeholder
key. -/
def ROp.cancelsPlaceholder : ROp → Bool
  | .cancel k => k == "_noop"
  | _ => false

theorem injectReducerS_preserves_noop (s : RStore) (k : String) (v : JSValue)
    (h : truthy (aget s.runningReducers "_noop") = true) :
    truthy (aget (injectReducerS s k v).state.runningReducers "_noop")
      = true := by
  by_cases hk : k = "_noop"
  · subst hk
    unfold injectReducerS
    split_ifs <;> simp_all
  · unfold injectReducerS
    split_ifs <;> simp_all [aget_aset_ne _ _ _ _ (Ne.symm hk)]

theorem injectManyGo_preserves_noop (l : List (String × JSValue)) :
    ∀ s : RStore, truthy (aget s.runningReducers "_noop") = true →
      truthy (aget (injectManyGo s l).state.runningReducers "_noop")
        = true := by
  induction l with
  | nil => intro s h; exact h
  | cons p rest ih =>
      intro s h
      obtain ⟨k, v⟩ := p
      cases herr : (injectReducerS s k v).err with
      | some e =>
          simp only [injectManyGo, herr]
          exact injectReducerS_preserves_noop s k v h
      | none =>
          simp only [injectManyGo, herr]
          exact ih _ (injectReducerS_preserves_noop s k v h)

theorem applyROp_preserves_noop (s : RStore) (op : ROp)
    (hop : op.cancelsPlaceholder = false)
    (h : truthy (aget s.runningReducers "_noop") = true) :
    truthy (aget (applyROp s op).runningReducers "_noop") = true := by
  cases op with
  | inject k v => exact injectReducerS_preserves_noop s k v h
  | injectMany arg =>
      show truthy (aget (injectReducers s arg).state.runningReducers "_noop")
        = true
      unfold injectReducers
      split_ifs
      · exact h
      · cases arg with
        | objV entries => exact injectManyGo_preserves_noop entries s h
        | undef => exact h
        | null => exact h
        | boolV b => exact h
        | numV n => exact h
        | strV s2 => exact h
        | funcV i => exact h
  | cancel k =>
      have hk : k ≠ "_noop" := by simpa [ROp.cancelsPlaceholder] using hop
      show truthy (aget (cancelReducer s k).runningReducers "_noop") = true
      unfold cancelReducer
      split_ifs
      · show truthy (aget (adel s.runningReducers k) "_noop") = true
        rw [aget_adel_ne _ _ _ (Ne.symm hk)]
        exact h
      · exact h

theorem noop_truthy_applyROps (ops : List ROp) :
    ∀ s : RStore, ops.all (fun op => !op.cancelsPlaceholder) = true →
      truthy (aget s.runningReducers "_noop") = true →
      truthy (aget (applyROps s ops).runningReducers "_noop") = true := by
  induction ops with
  | nil => intro s _ hs; exact hs
  | cons op rest ih =>
      intro s h hs
      simp only [List.all_cons, Bool.and_eq_true] at h
      have h1 : op.cancelsPlaceholder = false := by simpa using h.1
      exact ih (applyROp s op) h.2 (applyROp_preserves_noop s op h1 hs)

/-- C3 amended: for every sequence of handler-registry operations that
never invokes cancelReducer on the placeholder key `_noop`, the handler
mapping of a container freshly created by `createReduxStore` stays
non-empty (the placeholder entry survives every such operation). -/
theorem c3_amended (ops : List ROp)
    (h : ops.all (fun op => !op.cancelsPlaceholder) = true) :
    (applyROps initRStore ops).runningReducers.isEmpty = false := by
  have ht := noop_truthy_applyROps ops initRStore h (by rfl)
  cases hm : (applyROps initRStore ops).runningReducers with
  | nil => rw [hm] at ht; simp [aget, truthy] at ht
  | cons p l => simp [hm]

/-- Witness for C3 (amended) at a concrete sequence that registers and
then removes an ordinary handler. -/
theorem c3_witness :
    (applyROps initRStore
        [ROp.inject "a" (.funcV 3), ROp.cancel "a"]).runningReducers.isEmpty
      = false :=
  c3_amended [ROp.inject "a" (.funcV 3), ROp.cancel "a"] rfl

/-! Claim C4. -/

/-- C4: idempotence of the process registry.  When the run capability
produces a handle (a truthy value, as every cancellable handle object is),
calling injectSaga twice for the same key yields the same stored handle
both times, the second call leaves the state entirely unchanged (so the
run capability is not invoked again), and across both calls the run
capability is invoked at most once for that key. -/
theorem c4_inject_saga_idempotent (run : JSValue → JSValue) (s : SagaState)
    (k : String) (d : JSValue) (h : truthy (run d) = true) :
    ((injectSaga run (injectSaga run s k d).2 k d).1
      = (injectSaga run s k d).1)
    ∧ ((injectSaga run (injectSaga run s k d).2 k d).2
      = (injectSaga run s k d).2)
    ∧ (injectSaga run s k d).2.runLog.length ≤ s.runLog.length + 1 := by
  by_cases hk : truthy (aget s.runningSagas k) = true
  · simp [injectSaga, hk]
  · have hkf : truthy (aget s.runningSagas k) = false := by simpa using hk
    simp [injectSaga, hkf, aget_aset_self, h]

/-- Witness for C4 at a concrete registry and key. -/
theorem c4_witness :
    truthy (demoRun (.numV 1)) = true
    ∧ (((injectSaga demoRun
          (injectSaga demoRun emptySagaState "p" (.numV 1)).2 "p" (.numV 1)).1
        = (injectSaga demoRun emptySagaState "p" (.numV 1)).1)
      ∧ ((injectSaga demoRun
          (injectSaga demoRun emptySagaState "p" (.numV 1)).2 "p" (.numV 1)).2
        = (injectSaga demoRun emptySagaState "p" (.numV 1)).2)
      ∧ (injectSaga demoRun emptySagaState "p" (.numV 1)).2.runLog.length
          ≤ emptySagaState.runLog.length + 1) :=
  ⟨rfl, c4_inject_saga_idempotent demoRun emptySagaState "p" (.numV 1) rfl⟩

/-! Claim C5. -/

/-- C5 counterexample: for the non-empty key `_noop` (bound from creation)
and a callable handler, injectReducer is a silent no-op and cancelReducer
then deletes the placeholder itself; the single recorded reconfiguration
is the EMPTY mapping, which does not contain the placeholder — the
combined reducer is NOT rebuilt from the remaining mapping plus the
placeholder, contradicting the claim at this input. -/
theorem c5_counterexample :
    (cancelReducer (injectReducerS initRStore "_noop" (.funcV 5)).state
        "_noop").replaceLog = [[]]
    ∧ containsKey
        ((cancelReducer (injectReducerS initRStore "_noop" (.funcV 5)).state
            "_noop").replaceLog.headD noopEntries) "_noop" = false :=
  ⟨rfl, rfl⟩

/-- C5 amended: for every non-empty key other than the placeholder key
`_noop`, and every callable handler, injectReducer followed by
cancelReducer deletes the key (getReducer returns the undefined not-found
sentinel), the state's mapping is exactly the original with the key
deleted, the last recorded reconfiguration is that full remaining mapping
— which still contains the truthy placeholder entry — and cancelReducer
on an absent key is a no-op. -/
theorem c5_amended (s : RStore) (k : String) (i : Nat)
    (hnd : keysNodup s.runningReducers = true)
    (hnoop : truthy (aget s.runningReducers "_noop") = true)
    (hkn : (k == "_noop") = false)
    (hke : (k == "") = false) :
    ((cancelReducer (injectReducerS s k (.funcV i)).state k).runningReducers
        = adel s.runningReducers k)
    ∧ (getReducer (cancelReducer (injectReducerS s k (.funcV i)).state k) k
        = .undef)
    ∧ (containsKey (cancelReducer
          (injectReducerS s k (.funcV i)).state k).runningReducers k = false)
    ∧ ((cancelReducer (injectReducerS s k (.funcV i)).state k).replaceLog.getLast?
        = some (cancelReducer
            (injectReducerS s k (.funcV i)).state k).runningReducers)
    ∧ (truthy (aget (cancelReducer
          (injectReducerS s k (.funcV i)).state k).runningReducers "_noop")
        = true)
    ∧ (∀ k', aget s.runningReducers k' = .undef → cancelReducer s k' = s) := by
  have hkn' : k ≠ "_noop" := by simpa using hkn
  have hns : ("_noop" : String) ≠ k := Ne.symm hkn'
  have hnd2 : keysNodup (adel s.runningReducers k) = true :=
    keysNodup_adel _ _ hnd
  have hmerge : amerge (adel s.runningReducers k) (adel s.runningReducers k)
      = adel s.runningReducers k := amerge_self _ hnd2
  have hnoopcase : ∀ k', aget s.runningReducers k' = .undef →
      cancelReducer s k' = s := by
    intro k' h'
    unfold cancelReducer
    rw [h']
    simp [truthy]
  by_cases hk : truthy (aget s.runningReducers k) = true
  · have hstate : (injectReducerS s k (.funcV i)).state = s := by
      simp [injectReducerS, isEmpty, hke, hk]
    rw [hstate]
    have hc : cancelReducer s k
        = ⟨adel s.runningReducers k,
           s.replaceLog ++ [amerge (adel s.runningReducers k)
             (adel s.runningReducers k)]⟩ := by
      simp [cancelReducer, hk]
    rw [hc]
    refine ⟨rfl, ?_, ?_, ?_, ?_, hnoopcase⟩
    · simp [getReducer, aget_adel_self]
    · simp [containsKey_adel_self]
    · simp [hmerge, List.getLast?_concat]
    · show truthy (aget (adel s.runningReducers k) "_noop") = true
      rw [aget_adel_ne _ _ _ hns]
      exact hnoop
  · have hkf : truthy (aget s.runningReducers k) = false := by simpa using hk
    have hstate : (injectReducerS s k (.funcV i)).state
        = ⟨aset s.runningReducers k (.funcV i),
           s.replaceLog ++ [amerge (aset s.runningReducers k (.funcV i))
             (aset s.runningReducers k (.funcV i))]⟩ := by
      simp [injectReducerS, isEmpty, hke, hkf, typeof]
    rw [hstate]
    have hget : aget (aset s.runningReducers k (.funcV i)) k = .funcV i :=
      aget_aset_self _ _ _
    have hc : cancelReducer
        ⟨aset s.runningReducers k (.funcV i),
         s.replaceLog ++ [amerge (aset s.runningReducers k (.funcV i))
           (aset s.runningReducers k (.funcV i))]⟩ k
        = ⟨adel s.runningReducers k,
           (s.replaceLog ++ [amerge (aset s.runningReducers k (.funcV i))
             (aset s.runningReducers k (.funcV i))])
             ++ [amerge (adel s.runningReducers k)
               (adel s.runningReducers k)]⟩ := by
      simp [cancelReducer, hget, truthy, adel_aset]
    rw [hc]
    refine ⟨rfl, ?_, ?_, ?_, ?_, hnoopcase⟩
    · simp [getReducer, aget_adel_self]
    · simp [containsKey_adel_self]
    · simp [hmerge, List.getLast?_concat]
    · show truthy (aget (adel s.runningReducers k) "_noop") = true
      rw [aget_adel_ne _ _ _ hns]
      exact hnoop

/-- Witness for C5 (amended) at a concrete fresh key on a fresh
container. -/
theorem c5_witness :
    (("a" : String) == "_noop") = false
    ∧ (cancelReducer (injectReducerS initRStore "a" (.funcV 3)).state
          "a").runningReducers = adel initRStore.runningReducers "a" :=
  ⟨rfl, (c5_amended initRStore "a" 3 rfl rfl rfl rfl).1⟩

/-! Claim C6. -/

/-- C6: for a process registry whose run capability returns a handle with
a callable cancel capability, injectSaga followed by cancelSaga succeeds,
invokes the handle's cancel exactly once (the cancel log grows by exactly
that one handle), deletes the mapping entry so getSaga afterwards returns
the undefined not-found sentinel; and cancelSaga on an absent key is a
no-op that invokes no cancel. -/
theorem c6_cancel_saga (run : JSValue → JSValue) (ss : SagaState)
    (k : String) (d : JSValue)
    (hcancel : isFunction (propGet (run d) "cancel") = true)
    (habs : aget ss.runningSagas k = .undef) :
    ((cancelSaga (injectSaga run ss k d).2 k).2 = none)
    ∧ ((cancelSaga (injectSaga run ss k d).2 k).1.cancelLog
        = ss.cancelLog ++ [run d])
    ∧ (getSaga (cancelSaga (injectSaga run ss k d).2 k).1 k = .undef)
    ∧ (∀ k', aget ss.runningSagas k' = .undef →
        cancelSaga ss k' = (ss, none)) := by
  have htruthy : truthy (run d) = true := by
    cases hrd : run d <;> rw [hrd] at hcancel <;>
      simp [propGet, isFunction, typeof] at hcancel <;> simp [truthy]
  have hstate : (injectSaga run ss k d).2
      = ⟨aset ss.runningSagas k (run d), ss.runLog ++ [d], ss.cancelLog⟩ := by
    simp [injectSaga, habs, truthy]
  rw [hstate]
  have hget : aget (aset ss.runningSagas k (run d)) k = run d :=
    aget_aset_self _ _ _
  have hc : cancelSaga
      ⟨aset ss.runningSagas k (run d), ss.runLog ++ [d], ss.cancelLog⟩ k
      = (⟨adel (aset ss.runningSagas k (run d)) k, ss.runLog ++ [d],
          ss.cancelLog ++ [run d]⟩, none) := by
    simp [cancelSaga, hget, htruthy, hcancel]
  rw [hc]
  refine ⟨rfl, rfl, ?_, ?_⟩
  · simp [getSaga, aget_adel_self]
  · intro k' h'
    simp [cancelSaga, h', truthy]

/-- Witness for C6 at a concrete registry, key and process definition. -/
theorem c6_witness :
    isFunction (propGet (demoRun (.numV 1)) "cancel") = true
    ∧ (cancelSaga (injectSaga demoRun emptySagaState "p" (.numV 1)).2
          "p").1.cancelLog = emptySagaState.cancelLog ++ [demoRun (.numV 1)] :=
  ⟨rfl, (c6_cancel_saga demoRun emptySagaState "p" (.numV 1) rfl rfl).2.1⟩

/-! Claim C7. -/

/-- C7 counterexample: for the non-empty key `_noop`, which is present in
the handler mapping from creation, and the non-empty non-callable value
42, injectReducer does NOT fail: the presence guard of line 116 runs
before the callability check of line 117, so the call silently returns
the stored placeholder handler with no error — contradicting the claim's
"whether or not k is already present". -/
theorem c7_counterexample :
    injectReducerS initRStore "_noop" (.numV 42)
      = ⟨initRStore, .funcV 0, none⟩ := rfl

/-- C7 amended: for a non-empty key NOT already bound to a truthy handler
and a non-empty non-callable value, injectReducer fails with the
"Reducer must be a function" error and leaves the state unchanged; when
the key is already bound the call silently returns the stored handler
instead; empty key or empty value causes a silent no-op. -/
theorem c7_amended (s : RStore) (k : String) (v : JSValue)
    (hke : (k == "") = false)
    (hv1 : isEmpty v = false)
    (hv2 : isFunction v = false)
    (habs : truthy (aget s.runningReducers k) = false) :
    (injectReducerS s k v = ⟨s, .undef, some "Reducer must be a function"⟩)
    ∧ (∀ k' v', isEmpty v' = true → injectReducerS s k' v' = ⟨s, .undef, none⟩)
    ∧ (∀ v', injectReducerS s "" v' = ⟨s, .undef, none⟩) := by
  have hv2' : (typeof v == "function") = false := by
    simpa [isFunction] using hv2
  have hkeq : isEmpty (JSValue.strV k) = false := by simpa [isEmpty] using hke
  refine ⟨?_, ?_, ?_⟩
  · simp [injectReducerS, hkeq, hv1, habs, hv2']
  · intro k' v' he
    simp [injectReducerS, he]
  · intro v'
    by_cases he : isEmpty v' = true
    · simp [injectReducerS, he]
    · have he' : isEmpty v' = false := by simpa using he
      simp [injectReducerS, he', isEmpty]

/-- Witness for C7 (amended) at a concrete absent key and the concrete
non-callable value 42. -/
theorem c7_witness :
    isFunction (JSValue.numV 42) = false
    ∧ injectReducerS initRStore "user" (.numV 42)
        = ⟨initRStore, .undef, some "Reducer must be a function"⟩ :=
  ⟨rfl, (c7_amended initRStore "user" (.numV 42) rfl rfl rfl rfl).1⟩

/-! Claim C8. -/

/-- C8 counterexample: a middlewares mapping containing the value `null`
does NOT make creation fail: `typeof null` is "object", so `null` passes
the `isObject` half of the validation (lines 167-171), and the call
succeeds — here returning the valid existing store.  The claim's "for
example ... or null" is wrong on the code. -/
theorem c8_counterexample :
    createReduxStore demoFresh [("m", JSValue.null)] (some demoStore)
      = .ok (demoStore, some demoStore) := rfl

/-- C8 amended: creation fails with the "Middleware is not a function or
an object" error exactly when some VALUE of the middlewares mapping has a
JS type that is neither "object" nor "function" (numbers, strings,
booleans, undefined — but not null, whose type is "object"); key names
never contribute, and when every value passes the check no later failure
carries that error. -/
theorem c8_amended (fresh : Store) (mws : JMap) (slot : Option Store) :
    ((avalues mws).any badMiddleware = true →
      createReduxStore fresh mws slot
        = .error "Middleware is not a function or an object")
    ∧ ((avalues mws).any badMiddleware = false →
      ∀ e, createReduxStore fresh mws slot = .error e →
        e ≠ "Middleware is not a function or an object") := by
  constructor
  · intro h
    simp [createReduxStore, h]
  · intro h e he
    unfold createReduxStore at he
    rw [h] at he
    simp only [Bool.false_eq_true, if_false] at he
    cases slot with
    | some existing =>
        cases hv : isStoreValid existing with
        | false =>
            simp [hv] at he
            subst he
            decide
        | true => simp [hv] at he
    | none =>
        generalize hst : ({ fresh with runningReducers := some noopEntries, middlewares := mws } : Store) = store0 at he
        cases hv : isStoreValid store0 with
        | false =>
            simp [hv] at he
            subst he
            decide
        | true =>
            simp only [hv, Bool.not_true, Bool.false_eq_true, if_false] at he
            rw [createInjectReducer] at he
            simp only [hv, Bool.not_true, Bool.false_eq_true, if_false] at he
            set st1 := initRunningReducers store0 with hst1
            have hst1v : isStoreValid st1 = true := by
              rw [hst1]
              unfold initRunningReducers
              rcases hrr : store0.runningReducers with _ | l
              · rw [isStoreValid] at hv
                simp [isEmptyOpt, hrr] at hv
              · simp [hrr]
                exact hv
            by_cases hcond : (truthy (aget mws SAGA_MIDDLEWARE)
                && truthy (propGet (aget mws SAGA_MIDDLEWARE) "run")) = true
            · simp only [hcond, if_true] at he
              rw [createInjectSaga] at he
              simp only [hst1v, Bool.not_true, Bool.false_eq_true,
                if_false] at he
              cases hf : isFunction (propGet (aget mws SAGA_MIDDLEWARE) "run")
                with
              | false =>
                  simp [hf] at he
                  subst he
                  decide
              | true => simp [hf] at he
            · have hcond' : (truthy (aget mws SAGA_MIDDLEWARE)
                  && truthy (propGet (aget mws SAGA_MIDDLEWARE) "run"))
                    = false := by simpa using hcond
              simp [hcond'] at he

/-- Witness for C8 (amended): a string-valued middleware makes creation
fail with the bad-behavior error. -/
theorem c8_witness :
    createReduxStore demoFresh [("m", .strV "x")] none
      = .error "Middleware is not a function or an object" :=
  (c8_amended demoFresh [("m", .strV "x")] none).1 rfl

/-! Claim C9. -/

/-- C9 counterexample: `injectReducers null` does NOT fail with the
"expected mapping" error: `typeof null` is "object", so `null` passes the
`isObject` guard of line 132 and the failure is instead the native
TypeError thrown by `Object.entries(null)` — a different error than the
claim requires for this non-mapping argument. -/
theorem c9_counterexample :
    (injectReducers initRStore .null).err
      = some "TypeError: Cannot convert undefined or null to object"
    ∧ (injectReducers initRStore .null).err
      ≠ some ("Expected object, provided " ++ typeof .null) :=
  ⟨rfl, by decide⟩

theorem injectManyGo_fresh (l : List (String × JSValue)) :
    ∀ s : RStore,
      keysNodup s.runningReducers = true →
      (∀ p ∈ l, containsKey s.runningReducers p.1 = false) →
      (∀ p ∈ l, (p.1 == "") = false) →
      (∀ p ∈ l, isFunction p.2 = true) →
      keysNodup l = true →
      (injectManyGo s l).err = none
      ∧ (injectManyGo s l).state.runningReducers = s.runningReducers ++ l
      ∧ (injectManyGo s l).state.replaceLog.length
          = s.replaceLog.length + l.length
      ∧ (l ≠ [] → (injectManyGo s l).state.replaceLog.getLast?
          = some (s.runningReducers ++ l)) := by
  induction l with
  | nil =>
      intro s _ _ _ _ _
      refine ⟨rfl, by simp [injectManyGo], by simp [injectManyGo], ?_⟩
      intro hne
      exact absurd rfl hne
  | cons p rest ih =>
      intro s hsnd hfresh hke hfn hnd
      obtain ⟨k, v⟩ := p
      have hke1 : (k == "") = false := hke (k, v) (by simp)
      have hfn1 : isFunction v = true := hfn (k, v) (by simp)
      have hfresh1 : containsKey s.runningReducers k = false :=
        hfresh (k, v) (by simp)
      have hv_ne : isEmpty v = false := by
        cases v <;> first
          | rfl
          | (exfalso; simp [isFunction, typeof] at hfn1)
      have htypeof : (typeof v == "function") = true := by
        simpa [isFunction] using hfn1
      have habs : truthy (aget s.runningReducers k) = false := by
        rw [aget_of_not_containsKey _ _ hfresh1]
        rfl
      simp [keysNodup] at hnd
      have hset : aset s.runningReducers k v = s.runningReducers ++ [(k, v)] :=
        aset_absent _ _ _ hfresh1
      have hm1nd : keysNodup (s.runningReducers ++ [(k, v)]) = true :=
        keysNodup_append_single _ _ _ hsnd hfresh1
      have hmerge : amerge (s.runningReducers ++ [(k, v)])
          (s.runningReducers ++ [(k, v)]) = s.runningReducers ++ [(k, v)] :=
        amerge_self _ hm1nd
      have hstep : injectReducerS s k v
          = ⟨⟨s.runningReducers ++ [(k, v)],
              s.replaceLog ++ [s.runningReducers ++ [(k, v)]]⟩,
             aget (s.runningReducers ++ [(k, v)]) k, none⟩ := by
        have hkeq : isEmpty (JSValue.strV k) = false := by
          simpa [isEmpty] using hke1
        simp [injectReducerS, hv_ne, hkeq, habs, htypeof, hset, hmerge]
      have hgo : injectManyGo s ((k, v) :: rest)
          = injectManyGo ⟨s.runningReducers ++ [(k, v)],
              s.replaceLog ++ [s.runningReducers ++ [(k, v)]]⟩ rest := by
        simp only [injectManyGo, hstep]
      rw [hgo]
      have hfresh2 : ∀ q ∈ rest,
          containsKey (s.runningReducers ++ [(k, v)]) q.1 = false := by
        intro q hq
        have hq1 : containsKey s.runningReducers q.1 = false :=
          hfresh q (by simp [hq])
        have hq2 : k ≠ q.1 := by
          intro hkq
          have := containsKey_of_mem rest q.1 q.2 hq
          rw [← hkq] at this
          simp [this] at hnd
        simp [containsKey_append, hq1, containsKey, hq2]
      have ihres := ih ⟨s.runningReducers ++ [(k, v)],
          s.replaceLog ++ [s.runningReducers ++ [(k, v)]]⟩ hm1nd hfresh2
        (fun q hq => hke q (by simp [hq]))
        (fun q hq => hfn q (by simp [hq])) hnd.2
      obtain ⟨ih1, ih2, ih3, ih4⟩ := ihres
      refine ⟨ih1, ?_, ?_, ?_⟩
      · rw [ih2]
        simp
      · rw [ih3]
        simp
        omega
      · intro _
        cases hrest : rest with
        | nil =>
            subst hrest
            simp only [injectManyGo]
            simp [List.getLast?_concat]
        | cons q qs =>
            have hne : rest ≠ [] := by simp [hrest]
            rw [hrest] at ih4
            have := ih4 (by simp)
            rw [← hrest] at this ⊢
            rw [this]
            simp

/-- C9 amended: arguments whose JS type is not "object" fail with the
"expected mapping" error; `null` (whose JS type IS "object") instead
fails with the native TypeError raised when its entries are enumerated;
and for every mapping of pairwise-distinct fresh non-empty keys (none the
placeholder key) to callable handlers, applied to a freshly created
container, injectReducers succeeds, injects once per entry in iteration
order (one recorded reconfiguration per entry), getReducer afterwards
returns each supplied handler, and the final dispatch configuration is
exactly the placeholder followed by the supplied entries. -/
theorem c9_amended (entries : List (String × JSValue))
    (hk : entries.all (fun p => !(p.1 == "") && !(p.1 == "_noop")) = true)
    (hnd : keysNodup entries = true)
    (hv : entries.all (fun p => isFunction p.2) = true) :
    ((injectReducers initRStore (.objV entries)).err = none)
    ∧ ((injectReducers initRStore (.objV entries)).state.runningReducers
        = noopEntries ++ entries)
    ∧ (∀ p ∈ entries,
        getReducer (injectReducers initRStore (.objV entries)).state p.1
          = p.2)
    ∧ ((injectReducers initRStore (.objV entries)).state.replaceLog.length
        = entries.length)
    ∧ (entries ≠ [] →
        (injectReducers initRStore (.objV entries)).state.replaceLog.getLast?
          = some (noopEntries ++ entries))
    ∧ (∀ x, isObject x = false →
        injectReducers initRStore x
          = ⟨initRStore, .undef,
             some ("Expected object, provided " ++ typeof x)⟩) := by
  simp only [List.all_eq_true, Bool.and_eq_true, Bool.not_eq_true',
    beq_eq_false_iff_ne, ne_eq] at hk hv
  have hobj : injectReducers initRStore (.objV entries)
      = injectManyGo initRStore entries := by
    simp [injectReducers, isObject, typeof]
  have hfresh : ∀ p ∈ entries, containsKey initRStore.runningReducers p.1
      = false := by
    intro p hp
    have := (hk p hp).2
    simp [initRStore, noopEntries, containsKey]
    intro hcontra
    exact absurd hcontra.symm this
  have hres := injectManyGo_fresh entries initRStore rfl hfresh
    (fun p hp => by simpa using (hk p hp).1)
    (fun p hp => hv p hp) hnd
  obtain ⟨h1, h2, h3, h4⟩ := hres
  rw [hobj]
  refine ⟨h1, by simpa using h2, ?_, by simpa [initRStore] using h3,
    by simpa using h4, ?_⟩
  · intro p hp
    rw [getReducer, h2]
    have hnc : containsKey initRStore.runningReducers p.1 = false :=
      hfresh p hp
    rw [show initRStore.runningReducers = noopEntries from rfl] at hnc ⊢
    rw [aget_append_absent _ _ _ hnc]
    exact aget_of_mem_nodup entries p.1 p.2 hnd hp
  · intro x hx
    simp [injectReducers, hx]

/-- Witness for C9 (amended) at the concrete two-entry mapping of the
spec's scenario. -/
theorem c9_witness :
    ([(("a" : String), JSValue.funcV 1), ("b", .funcV 2)].all
        (fun p => !(p.1 == "") && !(p.1 == "_noop"))) = true
    ∧ (injectReducers initRStore
          (.objV [("a", .funcV 1), ("b", .funcV 2)])).state.runningReducers
        = noopEntries ++ [("a", .funcV 1), ("b", .funcV 2)] :=
  ⟨rfl, (c9_amended [("a", .funcV 1), ("b", .funcV 2)] rfl rfl rfl).2.1⟩

/-! Claim C10. -/

/-- Read of an optional mapping-valued store property, `undefined` when the
property itself is undefined. -/
def agetOpt : Option JMap → String → JSValue
  | none, _ => .undef
  | some l, k => aget l k

/-- C10: constructing a registry facade over a container whose mapping is
already defined leaves every existing entry unchanged.
createInjectReducer initializes runningReducers only when it is undefined
— and a store passing the validity check always has it defined and
non-empty, so on success the store is returned entirely unchanged;
createInjectSaga initializes runningSagas only when it is undefined, so
every existing handle entry reads the same afterwards.  Building a second
facade never discards previously registered handlers or handles. -/
theorem c10_facade_frame (st : Store) (runV : JSValue) :
    (∀ st1, createInjectReducer st = .ok st1 → st1 = st)
    ∧ (∀ st2, createInjectSaga st runV = .ok st2 →
        st2.runningReducers = st.runningReducers
        ∧ ∀ k, agetOpt st2.runningSagas k = agetOpt st.runningSagas k) := by
  constructor
  · intro st1 h
    unfold createInjectReducer at h
    cases hv : isStoreValid st with
    | false => simp [hv] at h
    | true =>
        simp [hv] at h
        rcases hrr : st.runningReducers with _ | l
        · rw [isStoreValid] at hv
          simp [isEmptyOpt, hrr] at hv
        · rw [← h]
          simp [initRunningReducers, hrr]
  · intro st2 h
    unfold createInjectSaga at h
    cases hv : isStoreValid st with
    | false => simp [hv] at h
    | true =>
        cases hf : isFunction runV with
        | false => simp [hv, hf] at h
        | true =>
            simp [hv, hf] at h
            rcases hrs : st.runningSagas with _ | l
            · rw [← h]
              refine ⟨by simp [initRunningSagas, hrs], ?_⟩
              intro k
              simp [initRunningSagas, hrs, agetOpt, aget]
            · rw [← h]
              refine ⟨by simp [initRunningSagas, hrs], ?_⟩
              intro k
              simp [initRunningSagas, hrs]

/-- The store produced by installing the saga registry on `demoStore`. -/
def demoStoreSagas : Store := { demoStore with runningSagas := some [] }

/-- Witness for C10 at a concrete store: the saga-registry constructor
succeeds and every entry of both mappings reads the same afterwards. -/
theorem c10_witness :
    demoStoreSagas.runningReducers = demoStore.runningReducers
    ∧ ∀ k, agetOpt demoStoreSagas.runningSagas k
        = agetOpt demoStore.runningSagas k :=
  (c10_facade_frame demoStore (.funcV 5)).2 demoStoreSagas rfl
